import Mathlib

/-!
# Verification of the ggg-luck fantasy-football luck calculator

Shallow embedding of `src/ggg_luck/main.py` (class `LuckCalculator`) and the
claims of the specification about it.  Python floats are modelled as rationals
(`ℚ`): every arithmetic operation the claims mention (comparison, addition,
multiplication, division by integers) is exact on the inputs involved.
A Python expression that can raise (the unguarded division in
`calculate_weekly_luck`) is modelled with `Option`: `none` is a raised
exception.  Python dicts keyed by team id are modelled as insertion-ordered
association lists; the data-model invariant makes the ids distinct, in which
case the two representations agree.
-/

/-- One team's result in one week (dataclass `WeeklyMatchup` in `main.py`). -/
structure WeeklyMatchup where
  week : Nat
  team_id : String
  team_name : String
  team_score : ℚ
  opponent_id : String
  opponent_name : String
  opponent_score : ℚ
  won : Bool
deriving DecidableEq

/-- Per-team season summary (dataclass `LuckMetrics` in `main.py`).
`scoring_trends` is omitted: its fields (standard deviation, regression
slope) involve real-valued square roots that no claim touches; the one
trend computation a claim is about (`_calculate_streaks`) is embedded
separately below. -/
structure LuckMetrics where
  team_id : String
  team_name : String
  total_luck_score : ℚ
  avg_luck_per_week : ℚ
  luckiest_week : Option WeeklyMatchup
  unluckiest_week : Option WeeklyMatchup
  weeks_played : Int
  should_have_wins : Int
  should_have_losses : Int
  luck_differential : Int
deriving DecidableEq

/-! ## Weekly Luck Engine (`LuckCalculator.calculate_weekly_luck`) -/

/-- The `week_matchups` list: `[m for m in matchups if m.week == week]`. -/
def weekRecords (matchups : List WeeklyMatchup) (week : Nat) : List WeeklyMatchup :=
  matchups.filter (fun m => m.week == week)

/-- The `all_scores` list of `(team_score, team_id)` pairs.  The source also
carries `team_name` and sorts the triples in descending order; the list is
consumed only through order-independent counting and its length, so the sort
and the name component are omitted. -/
def allScores (matchups : List WeeklyMatchup) (week : Nat) : List (ℚ × String) :=
  (weekRecords matchups week).map (fun m => (m.team_score, m.team_id))

/-- `sum(1 for score, _, _ in all_scores if score < x)`: how many of the
week's scores lie strictly below `x` (used both for `teams_would_beat`, with
`x` the team's own score, and for the opponent-percentile numerator, with `x`
the opponent's score). -/
def count_below (all_scores : List (ℚ × String)) (x : ℚ) : Nat :=
  all_scores.countP (fun p => decide (p.1 < x))

/-- The body of the per-matchup loop in `calculate_weekly_luck`.  The source
computes `opponent_percentile` by dividing by `total_possible_opponents`
with no guard, so `total_possible_opponents == 0` raises `ZeroDivisionError`
(modelled as `none`); `expected_win_pct` alone carries the
`if total_possible_opponents > 0 else 0.5` guard.  Both branches of the
`if actual_result == 1` statement compute `base_luck -
opponent_strength_factor`, reproduced here as in the source. -/
def record_luck (all_scores : List (ℚ × String)) (m : WeeklyMatchup) : Option ℚ :=
  let teams_would_beat : Int := count_below all_scores m.team_score
  let total_possible_opponents : Int := (all_scores.length : Int) - 1
  if total_possible_opponents = 0 then none
  else
    let opponent_percentile : ℚ :=
      (count_below all_scores m.opponent_score : ℚ) / (total_possible_opponents : ℚ)
    let expected_win_pct : ℚ :=
      if 0 < total_possible_opponents then
        (teams_would_beat : ℚ) / (total_possible_opponents : ℚ)
      else 1/2
    let actual_result : ℚ := if m.won then 1 else 0
    let base_luck : ℚ := (actual_result - expected_win_pct) * 100
    let opponent_strength_factor : ℚ := (opponent_percentile - 1/2) * 20
    some (if m.won then base_luck - opponent_strength_factor
          else base_luck - opponent_strength_factor)

/-- The per-matchup loop: builds the `luck_scores` mapping in iteration
order; a raised `ZeroDivisionError` (`none`) aborts the whole call. -/
def luckLoop (all_scores : List (ℚ × String)) :
    List WeeklyMatchup → Option (List (String × ℚ))
  | [] => some []
  | m :: rest =>
    match record_luck all_scores m with
    | none => none
    | some q =>
      match luckLoop all_scores rest with
      | none => none
      | some l => some ((m.team_id, q) :: l)

/-- `LuckCalculator.calculate_weekly_luck(matchups, week)`. -/
def calculate_weekly_luck (matchups : List WeeklyMatchup) (week : Nat) :
    Option (List (String × ℚ)) :=
  let week_matchups := weekRecords matchups week
  let all_scores := allScores matchups week
  luckLoop all_scores week_matchups

/-! ### Scenario A input (the repo's own `test_luck.py` sample) -/

/-- Week-1 matchups of Scenario A: TeamA 150 (won) vs TeamB 140; TeamC 120
(won) vs TeamD 90. -/
def scenarioA : List WeeklyMatchup :=
  [ ⟨1, "1", "TeamA", 150, "2", "TeamB", 140, true⟩,
    ⟨1, "2", "TeamB", 140, "1", "TeamA", 150, false⟩,
    ⟨1, "3", "TeamC", 120, "4", "TeamD", 90, true⟩,
    ⟨1, "4", "TeamD", 90, "3", "TeamC", 120, false⟩ ]

/-- A single-record week: only one `WeeklyMatchup` carries week 1. -/
def singleTeamWeek : List WeeklyMatchup :=
  [ ⟨1, "1", "TeamA", 100, "2", "TeamB", 90, true⟩ ]

/-! ## Expected wins (`LuckCalculator._calculate_expected_wins`) -/

/-- Python 3 `round` on an exact value: round half to even. -/
def pyRound (q : ℚ) : Int :=
  if q - ⌊q⌋ < 1/2 then ⌊q⌋
  else if 1/2 < q - ⌊q⌋ then ⌊q⌋ + 1
  else if ⌊q⌋ % 2 = 0 then ⌊q⌋ else ⌊q⌋ + 1

/-- The `week_scores` list built inside `_calculate_expected_wins` for one
of the team's matchups: `(m.team_score, m.team_id)` for the records of the
same week with a different team id. -/
def week_opponent_scores (all_matchups : List WeeklyMatchup)
    (matchup : WeeklyMatchup) : List (ℚ × String) :=
  (all_matchups.filter (fun m =>
    m.week == matchup.week && !(m.team_id == matchup.team_id))).map
      (fun m => (m.team_score, m.team_id))

/-- The `expected_wins` accumulator of `_calculate_expected_wins`: for each
of the team's matchups, the week's other-team scores are collected, and
`teams_would_beat / total_opponents` is added when `total_opponents > 0`. -/
def expectedWinsSum (team_matchups all_matchups : List WeeklyMatchup) : ℚ :=
  team_matchups.foldl (fun expected_wins matchup =>
    let week_scores := week_opponent_scores all_matchups matchup
    let teams_would_beat := week_scores.countP (fun p => decide (p.1 < matchup.team_score))
    let total_opponents := week_scores.length
    if 0 < total_opponents then
      expected_wins + (teams_would_beat : ℚ) / (total_opponents : ℚ)
    else expected_wins) 0

/-- `LuckCalculator._calculate_expected_wins`: `round(expected_wins)`. -/
def calculate_expected_wins (team_matchups all_matchups : List WeeklyMatchup) : Int :=
  pyRound (expectedWinsSum team_matchups all_matchups)

/-- The spec's formula for `should_have_wins` before rounding: the sum, over
the team's weeks, of (other teams with strictly lower score) / (other
teams), a zero-opponent week contributing nothing.  Written from the spec's
words, to be compared with `expectedWinsSum` from the source. -/
def spec_expected_sum (team_matchups all_matchups : List WeeklyMatchup) : ℚ :=
  (team_matchups.map (fun matchup =>
    let others := all_matchups.filter (fun m =>
      m.week == matchup.week && !(m.team_id == matchup.team_id))
    if others.length = 0 then 0
    else (others.countP (fun m => decide (m.team_score < matchup.team_score)) : ℚ)
           / (others.length : ℚ))).sum

/-! ## Streaks (`LuckCalculator._calculate_streaks`) and `np.mean` -/

/-- `np.mean` on an exact list of rationals. -/
def npMean (l : List ℚ) : ℚ := l.sum / (l.length : ℚ)

/-- The backwards scan of `_calculate_streaks`, on the reversed score list:
a strictly-above-average score extends the hot streak while no cold week has
been seen (else the loop breaks), and symmetrically for at-or-below-average
scores. -/
def streaksGo (avg : ℚ) : List ℚ → Nat → Nat → Nat × Nat
  | [], hot, cold => (hot, cold)
  | score :: rest, hot, cold =>
    if avg < score then
      if cold = 0 then streaksGo avg rest (hot + 1) cold else (hot, cold)
    else
      if hot = 0 then streaksGo avg rest hot (cold + 1) else (hot, cold)

/-- `LuckCalculator._calculate_streaks(weekly_scores, avg_score)`. -/
def calculate_streaks (weekly_scores : List ℚ) (avg_score : ℚ) : Nat × Nat :=
  if weekly_scores = [] then (0, 0)
  else streaksGo avg_score weekly_scores.reverse 0 0

/-! ## Parsing (`LuckCalculator._parse_matchups`)

The Yahoo response is modelled from the point the source reaches the
`matchup` list: navigation failures higher up all return the empty list and
are not distinguished by any claim.  A raw fixture keeps exactly the fields
the loop consults: whether `'teams'` is present, the `status` string, whether
`'winner_team_key'` is present, and the normalized team list (each team with
its id, display name and resolved score — the chain of score-field fallbacks
always resolves to some number). -/

structure RawTeam where
  team_id : String
  name : String
  score : ℚ
deriving DecidableEq

structure RawFixture where
  has_teams : Bool
  status : String
  has_winner : Bool
  teams : List RawTeam
deriving DecidableEq

/-- The two mirrored `WeeklyMatchup` records built for one finished
two-team fixture (`won` flags from the strict score comparisons). -/
def mkPair (week : Nat) (t1 t2 : RawTeam) : List WeeklyMatchup :=
  [ ⟨week, t1.team_id, t1.name, t1.score, t2.team_id, t2.name, t2.score,
      decide (t2.score < t1.score)⟩,
    ⟨week, t2.team_id, t2.name, t2.score, t1.team_id, t1.name, t1.score,
      decide (t1.score < t2.score)⟩ ]

/-- The fixture loop of `_parse_matchups`, carrying the accumulated
`matchups` list.  A fixture without `'teams'` is skipped (`continue`); a
fixture whose status is not `'postevent'`, or without a winner key, makes
the loop `return matchups` — the list accumulated SO FAR, not the empty
list; a fixture whose team list is not exactly two entries is skipped. -/
def parseGo (week : Nat) : List RawFixture → List WeeklyMatchup → List WeeklyMatchup
  | [], acc => acc
  | f :: rest, acc =>
    if f.has_teams = false then parseGo week rest acc
    else if f.status ≠ "postevent" then acc
    else if f.has_winner = false then acc
    else match f.teams with
      | [t1, t2] => parseGo week rest (acc ++ mkPair week t1 t2)
      | _ => parseGo week rest acc

/-- `LuckCalculator._parse_matchups`. -/
def parse_matchups (fixtures : List RawFixture) (week : Nat) : List WeeklyMatchup :=
  parseGo week fixtures []

/-- A fixture the loop passes without returning early: either it has no
`'teams'` key (skipped), or it is definitively finished with a winner. -/
def fixtureDone (f : RawFixture) : Bool :=
  !f.has_teams || (f.status == "postevent" && f.has_winner)

/-- The records one fixture contributes when the loop reaches past its
completion checks. -/
def fixturePairs (week : Nat) (f : RawFixture) : List WeeklyMatchup :=
  if f.has_teams then
    match f.teams with
    | [t1, t2] => mkPair week t1 t2
    | _ => []
  else []

/-! ## Season aggregation (`LuckCalculator.analyze_team_luck`)

The collaborator interface (`api.make_api_request` + the response shape) is
modelled as a pure oracle `fetch : Nat → Option (List RawFixture)`: `none`
is an exception raised by the request, `some d` the fixture list the
response yields for the requested week. -/

/-- Whether checking a week succeeds during the completion scan: the fetch
does not raise and the parsed matchup list is non-empty. -/
def fetchWeekOKb (fetch : Nat → Option (List RawFixture)) (week : Nat) : Bool :=
  match fetch week with
  | none => false
  | some d => !(parse_matchups d week).isEmpty

/-- The completion scan: weeks `week, week+1, ...` are tried while fuel
remains; an exception or an empty parse breaks the loop. -/
def scanGo (fetch : Nat → Option (List RawFixture)) : Nat → Nat → List Nat
  | _, 0 => []
  | week, n + 1 =>
    match fetch week with
    | none => []
    | some d =>
      if parse_matchups d week = [] then []
      else week :: scanGo fetch (week + 1) n

/-- `completed_weeks` as built by the scan over weeks `1 .. current_week`. -/
def completed_weeks (fetch : Nat → Option (List RawFixture)) (current_week : Nat) :
    List Nat :=
  scanGo fetch 1 current_week

/-- One week's contribution to the full fetch: an exception now is caught
and the week silently skipped (`continue`, contributing nothing). -/
def fetchWeekData (fetch : Nat → Option (List RawFixture)) (week : Nat) :
    List WeeklyMatchup :=
  match fetch week with
  | none => []
  | some d => parse_matchups d week

/-- The full-fetch loop: every completed week is fetched again and its
parsed records appended. -/
def fetchAll (fetch : Nat → Option (List RawFixture)) (weeks : List Nat) :
    List WeeklyMatchup :=
  weeks.flatMap (fetchWeekData fetch)

/-- One entry of the paired accumulator dicts `team_luck_totals` /
`team_matchups`: team id, its luck scores so far, its stored matchups so
far.  The Python dicts are modelled as one insertion-ordered association
list (their key sets always coincide: entries are created together). -/
abbrev TeamAcc := String × List ℚ × List WeeklyMatchup

/-- Appending one `(team_id, luck_score)` item: a fresh key is inserted at
the end, an existing key has the score appended; the matching matchup (the
`next(...)` search over `all_matchups`) is appended when found. -/
def addTeamEntry (acc : List TeamAcc) (tid : String) (q : ℚ)
    (mo : Option WeeklyMatchup) : List TeamAcc :=
  if acc.any (fun e => e.1 == tid) then
    acc.map (fun e => if e.1 == tid then (e.1, e.2.1 ++ [q], e.2.2 ++ mo.toList) else e)
  else acc ++ [(tid, [q], mo.toList)]

/-- The inner loop over `week_luck.items()` for one week. -/
def accumWeek (all_matchups : List WeeklyMatchup) (week : Nat)
    (acc : List TeamAcc) (week_luck : List (String × ℚ)) : List TeamAcc :=
  week_luck.foldl (fun acc p =>
    addTeamEntry acc p.1 p.2
      (all_matchups.find? (fun m => m.team_id == p.1 && m.week == week))) acc

/-- The outer per-week luck loop: `calculate_weekly_luck` is called for each
completed week (a raised `ZeroDivisionError` propagates: `none`). -/
def accumAll (all_matchups : List WeeklyMatchup) :
    List Nat → List TeamAcc → Option (List TeamAcc)
  | [], acc => some acc
  | week :: rest, acc =>
    match calculate_weekly_luck all_matchups week with
    | none => none
    | some week_luck =>
      accumAll all_matchups rest (accumWeek all_matchups week acc week_luck)

/-- Python `max` over a nonempty list (keeps the earlier element on ties);
the `[]` case is unreachable behind the source's emptiness guard. -/
def pyMaxQ : List ℚ → ℚ
  | [] => 0
  | h :: t => t.foldl (fun a b => if a < b then b else a) h

/-- Python `min` over a nonempty list (keeps the earlier element on ties). -/
def pyMinQ : List ℚ → ℚ
  | [] => 0
  | h :: t => t.foldl (fun a b => if b < a then b else a) h

/-- The body of the metrics loop for one accumulator entry: `continue` (no
record) when the luck list is empty, no record either when the matchup list
is empty (the `if matchups:` guard encloses the construction and append). -/
def buildMetrics (all_matchups : List WeeklyMatchup) : TeamAcc → Option LuckMetrics
  | (team_id, luck_scores, matchups) =>
    if luck_scores = [] then none
    else
      match matchups with
      | [] => none
      | m0 :: _ =>
        let total_luck := luck_scores.sum
        let avg_luck := total_luck / (luck_scores.length : ℚ)
        let max_luck_idx := luck_scores.findIdx (fun q => q == pyMaxQ luck_scores)
        let min_luck_idx := luck_scores.findIdx (fun q => q == pyMinQ luck_scores)
        let should_have_wins := calculate_expected_wins matchups all_matchups
        some
          { team_id := team_id
            team_name := m0.team_name
            total_luck_score := total_luck
            avg_luck_per_week := avg_luck
            luckiest_week := matchups.get? max_luck_idx
            unluckiest_week := matchups.get? min_luck_idx
            weeks_played := (matchups.length : Int)
            should_have_wins := should_have_wins
            should_have_losses := (matchups.length : Int) - should_have_wins
            luck_differential :=
              (matchups.countP (fun m => m.won) : Int) - should_have_wins }

/-- Stable ascending insertion by `total_luck_score` (a new element goes
after existing equal keys), modelling Python's stable `list.sort`. -/
def insertByLuck (x : LuckMetrics) : List LuckMetrics → List LuckMetrics
  | [] => [x]
  | y :: ys => if x.total_luck_score < y.total_luck_score then x :: y :: ys
               else y :: insertByLuck x ys

/-- `luck_metrics.sort(key=lambda x: x.total_luck_score)`. -/
def sortByLuck (l : List LuckMetrics) : List LuckMetrics :=
  l.foldl (fun acc x => insertByLuck x acc) []

/-- `LuckCalculator.analyze_team_luck(league_key, current_week)` as a
function of the fetch oracle.  (Charting, printing, and the scoring-trends
attachment are omitted: the trends computation is guarded total and no claim
depends on its value.) -/
def analyze_team_luck (fetch : Nat → Option (List RawFixture))
    (current_week : Nat) : Option (List LuckMetrics) :=
  let completed := completed_weeks fetch current_week
  if completed = [] then some []
  else
    let all_matchups := fetchAll fetch completed
    if all_matchups = [] then some []
    else
      match accumAll all_matchups completed [] with
      | none => none
      | some accum =>
        some (sortByLuck (accum.filterMap (buildMetrics all_matchups)))

/-- The spec's count of ordered pairs of week records whose first component
strictly out-scores the second (written from the spec's words, for
comparison with the engine's summed `teams_would_beat`). -/
def orderedBeatPairs (ms : List WeeklyMatchup) : Nat :=
  ((ms.product ms).filter (fun p => decide (p.2.team_score < p.1.team_score))).length

/-! ## Helper lemmas about the weekly engine -/

/-- The closed form of the luck score a record receives when no division is
degenerate (derived form used to relate source and spec statements). -/
def recordLuckFormula (all_scores : List (ℚ × String)) (m : WeeklyMatchup) : ℚ :=
  ((if m.won then (1 : ℚ) else 0)
      - (count_below all_scores m.team_score : ℚ) / ((all_scores.length : ℚ) - 1)) * 100
    - ((count_below all_scores m.opponent_score : ℚ) / ((all_scores.length : ℚ) - 1)
        - 1/2) * 20

/-- A finished two-team fixture, and an in-progress one. -/
def finishedFixture : RawFixture :=
  ⟨true, "postevent", true, [⟨"1", "TeamA", 100⟩, ⟨"2", "TeamB", 90⟩]⟩

def unfinishedFixture : RawFixture :=
  ⟨true, "midevent", false, [⟨"3", "TeamC", 50⟩, ⟨"4", "TeamD", 40⟩]⟩

/-- A one-week oracle: week 1 yields the finished fixture, later weeks
raise. -/
def exampleFetch : Nat → Option (List RawFixture) :=
  fun w => if w = 1 then some [finishedFixture] else none

def exampleMatchupA : WeeklyMatchup := ⟨1, "1", "TeamA", 100, "2", "TeamB", 90, true⟩

def exampleMatchupB : WeeklyMatchup := ⟨1, "2", "TeamB", 90, "1", "TeamA", 100, false⟩

/-- The two metrics records `analyze_team_luck` produces on `exampleFetch`. -/
def exampleMetricsA : LuckMetrics :=
  ⟨"1", "TeamA", 10, 10, some exampleMatchupA, some exampleMatchupA, 1, 1, 0, 0⟩

def exampleMetricsB : LuckMetrics :=
  ⟨"2", "TeamB", -10, -10, some exampleMatchupB, some exampleMatchupB, 1, 0, 1, 0⟩

lemma allScores_eq (matchups : List WeeklyMatchup) (week : Nat) :
    allScores matchups week
      = (weekRecords matchups week).map (fun m => (m.team_score, m.team_id)) := rfl

lemma allScores_length (matchups : List WeeklyMatchup) (week : Nat) :
    (allScores matchups week).length = (weekRecords matchups week).length := by
  rw [allScores_eq, List.length_map]

lemma count_below_allScores (matchups : List WeeklyMatchup) (week : Nat) (x : ℚ) :
    count_below (allScores matchups week) x
      = (weekRecords matchups week).countP (fun r => decide (r.team_score < x)) := by
  rw [count_below, allScores_eq, List.countP_map]
  rfl

lemma record_luck_eq_of_two_le (all_scores : List (ℚ × String)) (m : WeeklyMatchup)
    (h : 2 ≤ all_scores.length) :
    record_luck all_scores m = some (recordLuckFormula all_scores m) := by
  have h0 : ((all_scores.length : Int) - 1) ≠ 0 := by
    have : (2 : Int) ≤ (all_scores.length : Int) := by exact_mod_cast h
    omega
  have h1 : (0 : Int) < (all_scores.length : Int) - 1 := by
    have : (2 : Int) ≤ (all_scores.length : Int) := by exact_mod_cast h
    omega
  have hcast : (((all_scores.length : Int) - 1 : Int) : ℚ) = (all_scores.length : ℚ) - 1 := by
    push_cast
    ring
  rw [record_luck]
  simp only [h0, if_false, h1, if_true, recordLuckFormula, hcast, ite_self,
    Int.cast_natCast]

lemma luckLoop_eq_of_two_le (all_scores : List (ℚ × String))
    (h : 2 ≤ all_scores.length) (l : List WeeklyMatchup) :
    luckLoop all_scores l
      = some (l.map (fun m => (m.team_id, recordLuckFormula all_scores m))) := by
  induction l with
  | nil => rfl
  | cons m rest ih =>
    rw [luckLoop, record_luck_eq_of_two_le all_scores m h, ih]
    rfl

lemma calculate_weekly_luck_eq (matchups : List WeeklyMatchup) (week : Nat)
    (h : 2 ≤ (weekRecords matchups week).length) :
    calculate_weekly_luck matchups week
      = some ((weekRecords matchups week).map
          (fun m => (m.team_id, recordLuckFormula (allScores matchups week) m))) := by
  rw [calculate_weekly_luck]
  exact luckLoop_eq_of_two_le _ (by rw [allScores_length]; exact h) _

/-- Claim C1 counterexample input: on a single-record week the engine
raises (the unguarded `opponent_percentile` division by `N−1 = 0`). -/
theorem single_team_week_raises : calculate_weekly_luck singleTeamWeek 1 = none := rfl

/-- Claim C1 (amended): `calculate_weekly_luck` raises exactly on a week with a
single record: the `expected_win_pct` division is guarded, but the
`opponent_percentile` division by `N−1` is not, so `N = 1` raises
`ZeroDivisionError`, while `N = 0` and `N ≥ 2` return normally. -/
theorem weekly_luck_raises_iff_single (matchups : List WeeklyMatchup) (week : Nat) :
    calculate_weekly_luck matchups week = none
      ↔ (weekRecords matchups week).length = 1 := by
  rcases hwr : weekRecords matchups week with _ | ⟨m, _ | ⟨m2, rest⟩⟩
  · constructor
    · intro hnone
      rw [calculate_weekly_luck, allScores_eq, hwr] at hnone
      simp [luckLoop] at hnone
    · intro hlen
      simp at hlen
  · constructor
    · intro _
      rfl
    · intro _
      rw [calculate_weekly_luck, allScores_eq, hwr]
      simp [luckLoop, record_luck]
  · have h2 : 2 ≤ (weekRecords matchups week).length := by
      rw [hwr]
      simp [Nat.succ_le_succ]
    constructor
    · intro hnone
      rw [calculate_weekly_luck_eq matchups week h2] at hnone
      exact absurd hnone (by simp)
    · intro hlen
      simp at hlen

/-- Claim C3: for a week with `N ≥ 2` records the engine returns, for every
record in week order, the luck score
`((1 if won else 0) − teams_would_beat/(N−1))·100 − (opponent_percentile − ½)·20`
with `teams_would_beat` the count of week records scoring strictly below the
team and `opponent_percentile` the analogous count below the opponent's
score over `N−1`; the win and loss branches of the source yield this same
expression. -/
theorem weekly_luck_uniform_formula (matchups : List WeeklyMatchup) (week : Nat)
    (hN : 2 ≤ (weekRecords matchups week).length) :
    calculate_weekly_luck matchups week
      = some ((weekRecords matchups week).map (fun m =>
          (m.team_id,
            ((if m.won then (1 : ℚ) else 0)
                - ((weekRecords matchups week).countP
                    (fun r => decide (r.team_score < m.team_score)) : ℚ)
                  / (((weekRecords matchups week).length : ℚ) - 1)) * 100
              - (((weekRecords matchups week).countP
                    (fun r => decide (r.team_score < m.opponent_score)) : ℚ)
                  / (((weekRecords matchups week).length : ℚ) - 1) - 1/2) * 20))) := by
  rw [calculate_weekly_luck_eq matchups week hN]
  simp only [recordLuckFormula, count_below_allScores, allScores_length]

/-- Witness for `C3` at the Scenario A input. -/
theorem weekly_luck_uniform_formula_witness :
    2 ≤ (weekRecords scenarioA 1).length ∧
    calculate_weekly_luck scenarioA 1
      = some ((weekRecords scenarioA 1).map (fun m =>
          (m.team_id,
            ((if m.won then (1 : ℚ) else 0)
                - ((weekRecords scenarioA 1).countP
                    (fun r => decide (r.team_score < m.team_score)) : ℚ)
                  / (((weekRecords scenarioA 1).length : ℚ) - 1)) * 100
              - (((weekRecords scenarioA 1).countP
                    (fun r => decide (r.team_score < m.opponent_score)) : ℚ)
                  / (((weekRecords scenarioA 1).length : ℚ) - 1) - 1/2) * 20))) :=
  ⟨by norm_num [weekRecords, scenarioA],
   weekly_luck_uniform_formula scenarioA 1 (by norm_num [weekRecords, scenarioA])⟩

/-- Claim C6: on the Scenario A week, TeamB (id "2") gets luck `−230/3 ≈ −76.7`
and TeamD (id "4") gets `10/3 ≈ +3.3`: TeamB's score is negative, strictly
lower than TeamD's, and larger in absolute value. -/
theorem scenarioA_teamB_most_unlucky :
    calculate_weekly_luck scenarioA 1
      = some [("1", -10/3), ("2", -230/3), ("3", 230/3), ("4", 10/3)] ∧
    (-230/3 : ℚ) < 0 ∧ (-230/3 : ℚ) < (10/3 : ℚ) ∧
    |(10/3 : ℚ)| < |(-230/3 : ℚ)| := by
  refine ⟨?_, by norm_num, by norm_num, ?_⟩
  · norm_num [calculate_weekly_luck, weekRecords, allScores, luckLoop, record_luck,
      count_below, scenarioA, List.countP, List.countP.go, List.filter]
  · have h1 : |(10/3 : ℚ)| = 10/3 := abs_of_pos (by norm_num)
    have h2 : |(-230/3 : ℚ)| = 230/3 := by
      rw [abs_of_neg (by norm_num)]
      norm_num
    rw [h1, h2]
    norm_num

lemma product_cons_eq {α : Type} (a : α) (l1 l2 : List α) :
    (a :: l1).product l2 = l2.map (Prod.mk a) ++ l1.product l2 := rfl

lemma sum_countP_eq_length_filter_product {α : Type} (r : α → α → Bool)
    (l1 l2 : List α) :
    (l1.map (fun x => l2.countP (fun y => r x y))).sum
      = ((l1.product l2).filter (fun p => r p.1 p.2)).length := by
  induction l1 with
  | nil => rfl
  | cons a t ih =>
    rw [List.map_cons, List.sum_cons, product_cons_eq, List.filter_append,
      List.length_append, ← ih]
    congr 1
    rw [← List.countP_eq_length_filter, List.countP_map]
    rfl

/-- Claim C7: over any week with `N ≥ 2` records, the engine's
`teams_would_beat` counts sum to the number of ordered record pairs whose
first member strictly out-scores the second (ties counted in neither
direction, the comparison being strict). -/
theorem sum_teams_would_beat_eq_ordered_pairs (matchups : List WeeklyMatchup)
    (week : Nat) (hN : 2 ≤ (weekRecords matchups week).length) :
    ((weekRecords matchups week).map
        (fun m => count_below (allScores matchups week) m.team_score)).sum
      = orderedBeatPairs (weekRecords matchups week) := by
  simp only [count_below_allScores]
  unfold orderedBeatPairs
  exact sum_countP_eq_length_filter_product
    (fun (x y : WeeklyMatchup) => decide (y.team_score < x.team_score)) _ _

/-- Witness for `C7` at the Scenario A input (the sums equal 6 there). -/
theorem sum_teams_would_beat_eq_ordered_pairs_witness :
    2 ≤ (weekRecords scenarioA 1).length ∧
    ((weekRecords scenarioA 1).map
        (fun m => count_below (allScores scenarioA 1) m.team_score)).sum
      = orderedBeatPairs (weekRecords scenarioA 1) :=
  ⟨by norm_num [weekRecords, scenarioA],
   sum_teams_would_beat_eq_ordered_pairs scenarioA 1
     (by norm_num [weekRecords, scenarioA])⟩

lemma countP_add_one_le_length {α : Type} {p : α → Bool} {l : List α} {a : α}
    (ha : a ∈ l) (hpa : p a = false) : l.countP p + 1 ≤ l.length := by
  have h1 : 0 < l.countP (fun x => ¬p x) :=
    List.countP_pos_iff.mpr ⟨a, ha, by simp [hpa]⟩
  have h2 := List.length_eq_countP_add_countP (p := p) l
  omega

lemma count_below_le_of_present (matchups : List WeeklyMatchup) (week : Nat)
    {m2 : WeeklyMatchup} (hm2 : m2 ∈ weekRecords matchups week) {x : ℚ}
    (hx : m2.team_score = x) :
    count_below (allScores matchups week) x + 1 ≤ (allScores matchups week).length := by
  refine countP_add_one_le_length (a := (m2.team_score, m2.team_id)) ?_ ?_
  · rw [allScores_eq]
    exact List.mem_map_of_mem _ hm2
  · simp [hx]

lemma recordLuckFormula_bounds (matchups : List WeeklyMatchup) (week : Nat)
    (m : WeeklyMatchup) (hm : m ∈ weekRecords matchups week)
    (hN : 2 ≤ (weekRecords matchups week).length)
    (hmir : ∃ m2 ∈ weekRecords matchups week, m2.team_score = m.opponent_score) :
    (-100 ≤ ((if m.won then (1 : ℚ) else 0)
        - (count_below (allScores matchups week) m.team_score : ℚ)
          / (((weekRecords matchups week).length : ℚ) - 1)) * 100 ∧
      ((if m.won then (1 : ℚ) else 0)
        - (count_below (allScores matchups week) m.team_score : ℚ)
          / (((weekRecords matchups week).length : ℚ) - 1)) * 100 ≤ 100) ∧
    (-10 ≤ ((count_below (allScores matchups week) m.opponent_score : ℚ)
          / (((weekRecords matchups week).length : ℚ) - 1) - 1/2) * 20 ∧
      ((count_below (allScores matchups week) m.opponent_score : ℚ)
          / (((weekRecords matchups week).length : ℚ) - 1) - 1/2) * 20 ≤ 10) ∧
    (-110 ≤ recordLuckFormula (allScores matchups week) m ∧
      recordLuckFormula (allScores matchups week) m ≤ 110) := by
  obtain ⟨m2, hm2, hs2⟩ := hmir
  have hlen := allScores_length matchups week
  have hNq : (2 : ℚ) ≤ ((weekRecords matchups week).length : ℚ) := by exact_mod_cast hN
  have hden : (0 : ℚ) < ((weekRecords matchups week).length : ℚ) - 1 := by linarith
  have h1 := count_below_le_of_present matchups week hm (rfl)
  have h2 := count_below_le_of_present matchups week hm2 hs2
  rw [hlen] at h1 h2
  have h1q : (count_below (allScores matchups week) m.team_score : ℚ)
      ≤ ((weekRecords matchups week).length : ℚ) - 1 := by
    have : ((count_below (allScores matchups week) m.team_score : ℚ) + 1)
        ≤ ((weekRecords matchups week).length : ℚ) := by exact_mod_cast h1
    linarith
  have h2q : (count_below (allScores matchups week) m.opponent_score : ℚ)
      ≤ ((weekRecords matchups week).length : ℚ) - 1 := by
    have : ((count_below (allScores matchups week) m.opponent_score : ℚ) + 1)
        ≤ ((weekRecords matchups week).length : ℚ) := by exact_mod_cast h2
    linarith
  have he0 : (0 : ℚ) ≤ (count_below (allScores matchups week) m.team_score : ℚ)
      / (((weekRecords matchups week).length : ℚ) - 1) :=
    div_nonneg (Nat.cast_nonneg _) (le_of_lt hden)
  have he1 : (count_below (allScores matchups week) m.team_score : ℚ)
      / (((weekRecords matchups week).length : ℚ) - 1) ≤ 1 :=
    (div_le_one hden).mpr h1q
  have hp0 : (0 : ℚ) ≤ (count_below (allScores matchups week) m.opponent_score : ℚ)
      / (((weekRecords matchups week).length : ℚ) - 1) :=
    div_nonneg (Nat.cast_nonneg _) (le_of_lt hden)
  have hp1 : (count_below (allScores matchups week) m.opponent_score : ℚ)
      / (((weekRecords matchups week).length : ℚ) - 1) ≤ 1 :=
    (div_le_one hden).mpr h2q
  have ha0 : (0 : ℚ) ≤ (if m.won then (1 : ℚ) else 0) := by
    by_cases h : m.won <;> simp [h]
  have ha1 : (if m.won then (1 : ℚ) else 0) ≤ 1 := by
    by_cases h : m.won <;> simp [h]
  refine ⟨⟨by nlinarith, by nlinarith⟩, ⟨by nlinarith, by nlinarith⟩, ?_, ?_⟩
  · rw [recordLuckFormula, count_below_allScores, count_below_allScores,
      allScores_length, ← count_below_allScores, ← count_below_allScores]
    nlinarith
  · rw [recordLuckFormula, count_below_allScores, count_below_allScores,
      allScores_length, ← count_below_allScores, ← count_below_allScores]
    nlinarith

/-- Claim C10: on a week whose records satisfy the mirrored-pair property (every
record's opponent score appears as the team score of some record of the
week) and hold `N ≥ 2` teams, every luck score the engine returns lies in
`[−110, 110]`, the `(actual − expected)·100` component lies in `[−100, 100]`
and the opponent-strength adjustment lies in `[−10, 10]`. -/
theorem luck_scores_bounded (matchups : List WeeklyMatchup) (week : Nat)
    (hN : 2 ≤ (weekRecords matchups week).length)
    (hmirror : ∀ m ∈ weekRecords matchups week,
      ∃ m2 ∈ weekRecords matchups week, m2.team_score = m.opponent_score) :
    (∀ p ∈ (calculate_weekly_luck matchups week).getD [],
      -110 ≤ p.2 ∧ p.2 ≤ 110) ∧
    (∀ m ∈ weekRecords matchups week,
      (-100 ≤ ((if m.won then (1 : ℚ) else 0)
          - (count_below (allScores matchups week) m.team_score : ℚ)
            / (((weekRecords matchups week).length : ℚ) - 1)) * 100 ∧
        ((if m.won then (1 : ℚ) else 0)
          - (count_below (allScores matchups week) m.team_score : ℚ)
            / (((weekRecords matchups week).length : ℚ) - 1)) * 100 ≤ 100) ∧
      (-10 ≤ ((count_below (allScores matchups week) m.opponent_score : ℚ)
            / (((weekRecords matchups week).length : ℚ) - 1) - 1/2) * 20 ∧
        ((count_below (allScores matchups week) m.opponent_score : ℚ)
            / (((weekRecords matchups week).length : ℚ) - 1) - 1/2) * 20 ≤ 10)) := by
  constructor
  · intro p hp
    rw [calculate_weekly_luck_eq matchups week hN] at hp
    simp only [Option.getD_some, List.mem_map] at hp
    obtain ⟨m, hm, rfl⟩ := hp
    have := (recordLuckFormula_bounds matchups week m hm hN (hmirror m hm)).2.2
    exact this
  · intro m hm
    exact ⟨(recordLuckFormula_bounds matchups week m hm hN (hmirror m hm)).1,
           (recordLuckFormula_bounds matchups week m hm hN (hmirror m hm)).2.1⟩

/-- Witness for `C10` at the Scenario A input, on TeamB's returned score. -/
theorem luck_scores_bounded_witness :
    (-110 : ℚ) ≤ -230/3 ∧ (-230/3 : ℚ) ≤ 110 :=
  (luck_scores_bounded scenarioA 1 (by decide) (by decide)).1 ("2", -230/3)
    (by norm_num [calculate_weekly_luck, weekRecords, allScores, luckLoop,
      record_luck, count_below, scenarioA, List.countP, List.countP.go, List.filter])

/-! ## C4: the expected-wins rollup -/

lemma foldl_guard_add {α : Type} (t : α → ℚ) (n : α → Nat) :
    ∀ (l : List α) (c : ℚ),
      l.foldl (fun acc x => if 0 < n x then acc + t x else acc) c
        = c + (l.map (fun x => if n x = 0 then 0 else t x)).sum := by
  intro l
  induction l with
  | nil =>
    intro c
    simp
  | cons a tl ih =>
    intro c
    rw [List.foldl_cons, List.map_cons, List.sum_cons]
    rcases Nat.eq_zero_or_pos (n a) with h | h
    · rw [if_neg (by omega), if_pos h, ih]
      ring
    · rw [if_pos h, if_neg (by omega), ih]
      ring

lemma expectedWinsSum_eq_guarded_sum (team_matchups all_matchups : List WeeklyMatchup) :
    expectedWinsSum team_matchups all_matchups
      = 0 + (team_matchups.map (fun matchup =>
          if (week_opponent_scores all_matchups matchup).length = 0 then 0
          else ((week_opponent_scores all_matchups matchup).countP
                  (fun p => decide (p.1 < matchup.team_score)) : ℚ)
                / ((week_opponent_scores all_matchups matchup).length : ℚ))).sum :=
  foldl_guard_add
    (fun matchup => ((week_opponent_scores all_matchups matchup).countP
        (fun p => decide (p.1 < matchup.team_score)) : ℚ)
      / ((week_opponent_scores all_matchups matchup).length : ℚ))
    (fun matchup => (week_opponent_scores all_matchups matchup).length)
    team_matchups 0

/-- Claim C4: `_calculate_expected_wins` equals the rounded value of the spec's
sum — over the team's weeks — of (other teams with strictly lower score) /
(number of other teams), the team's own record excluded from numerator and
denominator by the `team_id` filter, a zero-opponent week contributing
nothing; the rounding is Python 3 `round` (round half to even). -/
theorem should_have_wins_formula (team_matchups all_matchups : List WeeklyMatchup) :
    calculate_expected_wins team_matchups all_matchups
      = pyRound (spec_expected_sum team_matchups all_matchups) := by
  rw [calculate_expected_wins]
  congr 1
  rw [expectedWinsSum_eq_guarded_sum, zero_add, spec_expected_sum]
  congr 1
  apply List.map_congr_left
  intro matchup _
  simp only [week_opponent_scores, List.length_map, List.countP_map]
  rfl

/-! ## C8: hot and cold streaks -/

lemma streaksGo_hot (avg : ℚ) :
    ∀ (l : List ℚ) (hot : Nat), hot ≠ 0 →
      streaksGo avg l hot 0
        = (hot + (l.takeWhile (fun x => decide (avg < x))).length, 0) := by
  intro l
  induction l with
  | nil =>
    intro hot h
    simp [streaksGo]
  | cons s rest ih =>
    intro hot h
    by_cases hs : avg < s
    · rw [streaksGo, if_pos hs, if_pos rfl, ih (hot + 1) (by omega),
        List.takeWhile_cons_of_pos (by simpa using hs), List.length_cons]
      congr 1
      omega
    · rw [streaksGo, if_neg hs, if_neg h,
        List.takeWhile_cons_of_neg (by simpa using hs), List.length_nil]
      simp

lemma streaksGo_cold (avg : ℚ) :
    ∀ (l : List ℚ) (cold : Nat), cold ≠ 0 →
      streaksGo avg l 0 cold
        = (0, cold + (l.takeWhile (fun x => decide (x ≤ avg))).length) := by
  intro l
  induction l with
  | nil =>
    intro cold h
    simp [streaksGo]
  | cons s rest ih =>
    intro cold h
    by_cases hs : avg < s
    · rw [streaksGo, if_pos hs, if_neg h,
        List.takeWhile_cons_of_neg (by simpa using not_le_of_lt hs), List.length_nil]
      simp
    · rw [streaksGo, if_neg hs, if_pos rfl, ih (cold + 1) (by omega),
        List.takeWhile_cons_of_pos (by simpa using not_lt.mp hs), List.length_cons]
      congr 1
      omega

lemma calculate_streaks_spec (scores : List ℚ) (avg : ℚ) (h : scores ≠ []) :
    ((calculate_streaks scores avg).1 ≠ 0 ∧ (calculate_streaks scores avg).2 = 0
      ∨ (calculate_streaks scores avg).1 = 0 ∧ (calculate_streaks scores avg).2 ≠ 0) ∧
    ∀ lastScore, scores.getLast? = some lastScore →
      (avg < lastScore →
        calculate_streaks scores avg
          = ((scores.reverse.takeWhile (fun x => decide (avg < x))).length, 0)) ∧
      (¬ avg < lastScore →
        calculate_streaks scores avg
          = (0, (scores.reverse.takeWhile (fun x => decide (x ≤ avg))).length)) := by
  rcases hrev : scores.reverse with _ | ⟨lastv, rest⟩
  · exact absurd (by simpa using congrArg List.reverse hrev) h
  · have hlast : scores.getLast? = some lastv := by
      rw [← List.head?_reverse, hrev]
      rfl
    have hcalc : calculate_streaks scores avg = streaksGo avg (lastv :: rest) 0 0 := by
      rw [calculate_streaks, if_neg h, hrev]
    by_cases hc : avg < lastv
    · have hval : calculate_streaks scores avg
          = ((1 + (rest.takeWhile (fun x => decide (avg < x))).length, 0) : Nat × Nat) := by
        rw [hcalc, streaksGo, if_pos hc, if_pos rfl, streaksGo_hot avg rest 1 (by omega)]
      have htw : (scores.reverse.takeWhile (fun x => decide (avg < x))).length
          = 1 + (rest.takeWhile (fun x => decide (avg < x))).length := by
        rw [hrev, List.takeWhile_cons_of_pos (by simpa using hc), List.length_cons]
        omega
      constructor
      · left
        rw [hval]
        exact ⟨by omega, rfl⟩
      · intro lastScore hl
        have heq : lastScore = lastv := Option.some.inj (hl.symm.trans hlast)
        subst heq
        refine ⟨fun _ => ?_, fun hn => absurd hc hn⟩
        rw [hval, List.takeWhile_cons_of_pos (by simpa using hc), List.length_cons]
        congr 1
        omega
    · have hval : calculate_streaks scores avg
          = ((0, 1 + (rest.takeWhile (fun x => decide (x ≤ avg))).length) : Nat × Nat) := by
        rw [hcalc, streaksGo, if_neg hc, if_pos rfl, streaksGo_cold avg rest 1 (by omega)]
      have htw : (scores.reverse.takeWhile (fun x => decide (x ≤ avg))).length
          = 1 + (rest.takeWhile (fun x => decide (x ≤ avg))).length := by
        rw [hrev, List.takeWhile_cons_of_pos (by simpa using not_lt.mp hc),
          List.length_cons]
        omega
      constructor
      · right
        rw [hval]
        exact ⟨rfl, by omega⟩
      · intro lastScore hl
        have heq : lastScore = lastv := Option.some.inj (hl.symm.trans hlast)
        subst heq
        refine ⟨fun hp => absurd hp hc, fun _ => ?_⟩
        rw [hval, List.takeWhile_cons_of_pos (by simpa using not_lt.mp hc),
          List.length_cons]
        congr 1
        omega

/-- Claim C8: for a non-empty score list, with the average being the `np.mean`
of the scores, exactly one of the two streaks is non-zero; if the most
recent score is strictly above the average, the hot streak is the length of
the trailing run of strictly-above-average scores and the cold streak is 0,
and otherwise the cold streak is the trailing run of at-or-below-average
scores and the hot streak is 0 (the empty list gives both 0). -/
theorem streaks_exclusive (scores : List ℚ) (h : scores ≠ []) :
    ((calculate_streaks scores (npMean scores)).1 ≠ 0
        ∧ (calculate_streaks scores (npMean scores)).2 = 0
      ∨ (calculate_streaks scores (npMean scores)).1 = 0
        ∧ (calculate_streaks scores (npMean scores)).2 ≠ 0) ∧
    ∀ lastScore, scores.getLast? = some lastScore →
      (npMean scores < lastScore →
        calculate_streaks scores (npMean scores)
          = ((scores.reverse.takeWhile
              (fun x => decide (npMean scores < x))).length, 0)) ∧
      (¬ npMean scores < lastScore →
        calculate_streaks scores (npMean scores)
          = (0, (scores.reverse.takeWhile
              (fun x => decide (x ≤ npMean scores))).length)) :=
  calculate_streaks_spec scores (npMean scores) h

/-- Witness for `C8` on the score list `[1, 5]` (average 3, hot finish). -/
theorem streaks_exclusive_witness :
    ((calculate_streaks [(1 : ℚ), 5] (npMean [(1 : ℚ), 5])).1 ≠ 0
        ∧ (calculate_streaks [(1 : ℚ), 5] (npMean [(1 : ℚ), 5])).2 = 0
      ∨ (calculate_streaks [(1 : ℚ), 5] (npMean [(1 : ℚ), 5])).1 = 0
        ∧ (calculate_streaks [(1 : ℚ), 5] (npMean [(1 : ℚ), 5])).2 ≠ 0) ∧
    ∀ lastScore, ([(1 : ℚ), 5]).getLast? = some lastScore →
      (npMean [(1 : ℚ), 5] < lastScore →
        calculate_streaks [(1 : ℚ), 5] (npMean [(1 : ℚ), 5])
          = ((([(1 : ℚ), 5]).reverse.takeWhile
              (fun x => decide (npMean [(1 : ℚ), 5] < x))).length, 0)) ∧
      (¬ npMean [(1 : ℚ), 5] < lastScore →
        calculate_streaks [(1 : ℚ), 5] (npMean [(1 : ℚ), 5])
          = (0, (([(1 : ℚ), 5]).reverse.takeWhile
              (fun x => decide (x ≤ npMean [(1 : ℚ), 5]))).length)) :=
  streaks_exclusive [(1 : ℚ), 5] (by simp)

/-! ## C2: the parse loop and unfinished fixtures -/

lemma parseGo_eq (week : Nat) :
    ∀ (fixtures : List RawFixture) (acc : List WeeklyMatchup),
      parseGo week fixtures acc
        = acc ++ (fixtures.takeWhile fixtureDone).flatMap (fixturePairs week) := by
  intro fixtures
  induction fixtures with
  | nil =>
    intro acc
    simp [parseGo]
  | cons f rest ih =>
    intro acc
    rw [parseGo]
    by_cases h1 : f.has_teams
    · rw [if_neg (by simp [h1])]
      by_cases h2 : f.status = "postevent"
      · rw [if_neg (by simp [h2])]
        by_cases h3 : f.has_winner
        · rw [if_neg (by simp [h3])]
          have hdone : fixtureDone f = true := by
            simp [fixtureDone, h1, h2, h3]
          rw [List.takeWhile_cons_of_pos hdone, List.flatMap_cons]
          rcases hft : f.teams with _ | ⟨t1, _ | ⟨t2, _ | _⟩⟩ <;>
            simp only [hft] <;>
            rw [ih] <;>
            simp [fixturePairs, h1, hft, List.append_assoc]
        · have hfw : f.has_winner = false := by simpa using h3
          rw [if_pos hfw]
          have hdone : fixtureDone f = false := by
            simp [fixtureDone, h1, hfw]
          rw [List.takeWhile_cons_of_neg (by simp [hdone])]
          simp
      · rw [if_pos h2]
        have hdone : fixtureDone f = false := by
          simp [fixtureDone, h1, h2]
        rw [List.takeWhile_cons_of_neg (by simp [hdone])]
        simp
    · have hht : f.has_teams = false := by simpa using h1
      rw [if_pos hht]
      have hdone : fixtureDone f = true := by
        simp [fixtureDone, hht]
      rw [List.takeWhile_cons_of_pos hdone, List.flatMap_cons, ih]
      simp [fixturePairs, hht]

/-- Claim C2 (characterization): the parse yields exactly the mirrored pairs of
the finished two-team fixtures preceding the first fixture that has teams
but is not `'postevent'`-with-winner; data from finished fixtures before an
unfinished one IS returned. -/
theorem parse_matchups_stops_at_unfinished (fixtures : List RawFixture) (week : Nat) :
    parse_matchups fixtures week
      = (fixtures.takeWhile fixtureDone).flatMap (fixturePairs week) := by
  rw [parse_matchups, parseGo_eq]
  rfl

/-- Claim C2 failing input: a week whose fixture list holds one finished fixture
and then one unfinished fixture parses to the two records of the finished
fixture — a non-empty, partial result, not the empty sequence the claim
requires, so the completion scan counts the week as complete. -/
theorem parse_keeps_finished_prefix_data :
    parse_matchups [finishedFixture, unfinishedFixture] 1
      = [⟨1, "1", "TeamA", 100, "2", "TeamB", 90, true⟩,
         ⟨1, "2", "TeamB", 90, "1", "TeamA", 100, false⟩] ∧
    parse_matchups [finishedFixture, unfinishedFixture] 1 ≠ [] := by
  refine ⟨by decide, by decide⟩

/-! ## Lemmas for the season aggregator -/

lemma mkPair_week {w : Nat} {t1 t2 : RawTeam} :
    ∀ m ∈ mkPair w t1 t2, m.week = w := by
  intro m hm
  simp only [mkPair, List.mem_cons, List.not_mem_nil, or_false] at hm
  rcases hm with rfl | rfl <;> rfl

lemma fixturePairs_week {w : Nat} {f : RawFixture} :
    ∀ m ∈ fixturePairs w f, m.week = w := by
  intro m hm
  rw [fixturePairs] at hm
  split at hm
  · split at hm <;>
      first
        | exact mkPair_week m hm
        | exact absurd hm (List.not_mem_nil m)
  · exact absurd hm (List.not_mem_nil m)

lemma parse_matchups_week {d : List RawFixture} {w : Nat} :
    ∀ m ∈ parse_matchups d w, m.week = w := by
  intro m hm
  rw [parse_matchups_stops_at_unfinished, List.mem_flatMap] at hm
  obtain ⟨f, _, hmf⟩ := hm
  exact fixturePairs_week m hmf

lemma fixturePairs_length (w : Nat) (f : RawFixture) :
    (fixturePairs w f).length = 0 ∨ (fixturePairs w f).length = 2 := by
  rw [fixturePairs]
  split
  · split <;> first | (left; rfl) | (right; rfl)
  · left
    rfl

lemma parse_matchups_length_even (d : List RawFixture) (w : Nat) :
    (parse_matchups d w).length % 2 = 0 := by
  rw [parse_matchups_stops_at_unfinished]
  generalize (d.takeWhile fixtureDone) = l
  induction l with
  | nil => rfl
  | cons f rest ih =>
    rw [List.flatMap_cons, List.length_append]
    rcases fixturePairs_length w f with h | h <;> omega

lemma fetchWeekOKb_iff (fetch : Nat → Option (List RawFixture)) (w : Nat) :
    fetchWeekOKb fetch w = true
      ↔ ∃ d, fetch w = some d ∧ parse_matchups d w ≠ [] := by
  rw [fetchWeekOKb]
  cases hf : fetch w with
  | none => simp
  | some d => simp [List.isEmpty_iff]

lemma scanGo_spec (fetch : Nat → Option (List RawFixture)) :
    ∀ (n w : Nat), ∃ k, k ≤ n ∧ scanGo fetch w n = List.range' w k ∧
      (∀ i, i < k → fetchWeekOKb fetch (w + i) = true) ∧
      (k < n → fetchWeekOKb fetch (w + k) = false) := by
  intro n
  induction n with
  | zero =>
    intro w
    exact ⟨0, Nat.le_refl 0, rfl, fun i hi => absurd hi (by omega), fun h => absurd h (by omega)⟩
  | succ n ih =>
    intro w
    cases hf : fetch w with
    | none =>
      refine ⟨0, by omega, ?_, fun i hi => absurd hi (by omega), fun _ => ?_⟩
      · rw [scanGo, hf]
        rfl
      · rw [Nat.add_zero, fetchWeekOKb]
        simp only [hf]
    | some d =>
      by_cases hp : parse_matchups d w = []
      · refine ⟨0, by omega, ?_, fun i hi => absurd hi (by omega), fun _ => ?_⟩
        · rw [scanGo]
          simp only [hf]
          rw [if_pos hp]
          rfl
        · rw [Nat.add_zero, fetchWeekOKb]
          simp only [hf, hp, List.isEmpty_nil, Bool.not_true]
      · obtain ⟨k, hk, hscan, hok, hfail⟩ := ih (w + 1)
        refine ⟨k + 1, by omega, ?_, ?_, ?_⟩
        · rw [scanGo]
          simp only [hf]
          rw [if_neg hp, hscan]
          rfl
        · intro i hi
          cases i with
          | zero =>
            rw [Nat.add_zero, fetchWeekOKb]
            simp only [hf]
            simp [hp]
          | succ j =>
            have := hok j (by omega)
            rw [show w + (j + 1) = (w + 1) + j by omega]
            exact this
        · intro h
          have := hfail (by omega)
          rw [show w + (k + 1) = (w + 1) + k by omega]
          exact this

lemma weekRecords_append (A B : List WeeklyMatchup) (w : Nat) :
    weekRecords (A ++ B) w = weekRecords A w ++ weekRecords B w :=
  List.filter_append _ _

lemma weekRecords_eq_nil_of_ne {l : List WeeklyMatchup} {w w' : Nat} (hne : w' ≠ w)
    (hl : ∀ m ∈ l, m.week = w') : weekRecords l w = [] := by
  rw [weekRecords, List.filter_eq_nil_iff]
  intro m hm
  simp [hl m hm, hne]

lemma weekRecords_eq_self {l : List WeeklyMatchup} {w : Nat}
    (hl : ∀ m ∈ l, m.week = w) : weekRecords l w = l := by
  rw [weekRecords, List.filter_eq_self]
  intro m hm
  simp [hl m hm]

lemma fetchWeekData_week (fetch : Nat → Option (List RawFixture)) (w : Nat) :
    ∀ m ∈ fetchWeekData fetch w, m.week = w := by
  intro m hm
  rw [fetchWeekData] at hm
  split at hm
  · exact absurd hm (List.not_mem_nil m)
  · exact parse_matchups_week m hm

lemma weekRecords_flatMap_nomem (fetch : Nat → Option (List RawFixture)) :
    ∀ (l : List Nat) (w : Nat), w ∉ l →
      weekRecords (l.flatMap (fetchWeekData fetch)) w = [] := by
  intro l
  induction l with
  | nil =>
    intro w _
    rfl
  | cons a t ih =>
    intro w hw
    rw [List.flatMap_cons, weekRecords_append,
      ih w (fun h => hw (List.mem_cons_of_mem a h)),
      weekRecords_eq_nil_of_ne
        (fun h => hw (by rw [← h]; exact List.mem_cons_self a t))
        (fetchWeekData_week fetch a)]
    rfl

lemma weekRecords_fetchAll (fetch : Nat → Option (List RawFixture)) :
    ∀ (l : List Nat), l.Nodup → ∀ w ∈ l,
      weekRecords (fetchAll fetch l) w = fetchWeekData fetch w := by
  intro l
  induction l with
  | nil =>
    intro _ w hw
    cases hw
  | cons a t ih =>
    intro hnd w hw
    obtain ⟨hna, hndt⟩ := List.nodup_cons.mp hnd
    rw [fetchAll, List.flatMap_cons, weekRecords_append]
    rcases List.mem_cons.mp hw with rfl | hw'
    · rw [weekRecords_eq_self (fetchWeekData_week fetch w),
        weekRecords_flatMap_nomem fetch t w hna, List.append_nil]
    · have hcomm : a ≠ w := fun h => hna (h ▸ hw')
      rw [weekRecords_eq_nil_of_ne hcomm (fetchWeekData_week fetch a), List.nil_append]
      exact ih hndt w hw'

lemma luckLoop_isSome (all_scores : List (ℚ × String))
    (h : all_scores.length ≠ 1) :
    ∀ l, (luckLoop all_scores l).isSome = true := by
  intro l
  induction l with
  | nil => rfl
  | cons m rest ih =>
    have hz : ((all_scores.length : Int) - 1) ≠ 0 := by
      intro hh
      exact h (by exact_mod_cast (by omega : (all_scores.length : Int) = 1))
    cases hrl : record_luck all_scores m with
    | none =>
      rw [record_luck, if_neg hz] at hrl
      exact absurd hrl (by simp)
    | some q =>
      cases hll : luckLoop all_scores rest with
      | none =>
        rw [hll] at ih
        simp at ih
      | some lres =>
        rw [luckLoop, hrl, hll]
        rfl

lemma calculate_weekly_luck_isSome (matchups : List WeeklyMatchup) (week : Nat)
    (h : (weekRecords matchups week).length ≠ 1) :
    (calculate_weekly_luck matchups week).isSome = true := by
  rw [calculate_weekly_luck]
  exact luckLoop_isSome _ (by rw [allScores_length]; exact h) _

lemma accumAll_isSome (am : List WeeklyMatchup) :
    ∀ (weeksl : List Nat) (acc : List TeamAcc),
      (∀ w ∈ weeksl, (calculate_weekly_luck am w).isSome = true) →
      (accumAll am weeksl acc).isSome = true := by
  intro weeksl
  induction weeksl with
  | nil =>
    intro acc _
    rfl
  | cons w t ih =>
    intro acc hall
    have h1 := hall w (List.mem_cons_self w t)
    cases hc : calculate_weekly_luck am w with
    | none =>
      rw [hc] at h1
      simp at h1
    | some wl =>
      rw [accumAll, hc]
      exact ih _ (fun w' hw' => hall w' (List.mem_cons_of_mem w hw'))

lemma mem_insertByLuck (x a : LuckMetrics) :
    ∀ (l : List LuckMetrics), a ∈ insertByLuck x l ↔ a = x ∨ a ∈ l := by
  intro l
  induction l with
  | nil => simp [insertByLuck]
  | cons y ys ih =>
    rw [insertByLuck]
    split
    · exact List.mem_cons
    · rw [List.mem_cons, ih, List.mem_cons]
      tauto

lemma mem_sortFold :
    ∀ (l acc : List LuckMetrics) (a : LuckMetrics),
      a ∈ l.foldl (fun acc x => insertByLuck x acc) acc ↔ a ∈ l ∨ a ∈ acc := by
  intro l
  induction l with
  | nil =>
    intro acc a
    simp
  | cons x t ih =>
    intro acc a
    rw [List.foldl_cons, ih, mem_insertByLuck, List.mem_cons]
    tauto

lemma mem_sortByLuck (l : List LuckMetrics) (a : LuckMetrics) :
    a ∈ sortByLuck l ↔ a ∈ l := by
  rw [sortByLuck, mem_sortFold]
  simp

lemma buildMetrics_invariant (am : List WeeklyMatchup) (e : TeamAcc)
    (m : LuckMetrics) (h : buildMetrics am e = some m) :
    m.should_have_wins + m.should_have_losses = m.weeks_played := by
  obtain ⟨tid, ls, ms⟩ := e
  simp only [buildMetrics] at h
  split at h
  · exact absurd h (by simp)
  · split at h
    · exact absurd h (by simp)
    · have heq := Option.some.inj h
      subst heq
      simp only []
      ring

/-- Claim C9: every `LuckMetrics` record the season analysis produces satisfies
`should_have_wins + should_have_losses = weeks_played`, for every fetch
oracle and week bound. -/
theorem metrics_win_loss_invariant (fetch : Nat → Option (List RawFixture))
    (current_week : Nat) (l : List LuckMetrics) (m : LuckMetrics)
    (hana : analyze_team_luck fetch current_week = some l) (hm : m ∈ l) :
    m.should_have_wins + m.should_have_losses = m.weeks_played := by
  simp only [analyze_team_luck] at hana
  split at hana
  · obtain rfl := Option.some.inj hana
    cases hm
  · split at hana
    · obtain rfl := Option.some.inj hana
      cases hm
    · split at hana
      · exact absurd hana (by simp)
      · obtain rfl := Option.some.inj hana
        rw [mem_sortByLuck] at hm
        obtain ⟨e, _, hbe⟩ := List.mem_filterMap.mp hm
        exact buildMetrics_invariant _ e m hbe

/-- Claim C5: the season analysis never propagates a fetch failure (its result
is always `some`); the completed weeks form the contiguous prefix
`1 .. k` where every week up to `k` fetches and parses non-empty and, if the
scan stopped before `current_week`, week `k+1` fails or parses empty (weeks
past the first failure are never included); and if no week is complete the
result is the empty list, not an error. -/
theorem season_scan_prefix_and_no_raise (fetch : Nat → Option (List RawFixture))
    (current_week : Nat) :
    (analyze_team_luck fetch current_week).isSome = true ∧
    (∃ k, k ≤ current_week ∧
      completed_weeks fetch current_week = List.range' 1 k ∧
      (∀ w, 1 ≤ w → w ≤ k → fetchWeekOKb fetch w = true) ∧
      (k < current_week → fetchWeekOKb fetch (k + 1) = false)) ∧
    (completed_weeks fetch current_week = [] →
      analyze_team_luck fetch current_week = some []) := by
  obtain ⟨k, hk, hscan, hok, hfail⟩ := scanGo_spec fetch current_week 1
  have hcw : completed_weeks fetch current_week = List.range' 1 k := hscan
  have hsome : ∀ w ∈ completed_weeks fetch current_week,
      (calculate_weekly_luck
        (fetchAll fetch (completed_weeks fetch current_week)) w).isSome = true := by
    intro w hw
    have hnd : (completed_weeks fetch current_week).Nodup := by
      rw [hcw]
      exact List.nodup_range' 1 k
    have hwr := weekRecords_fetchAll fetch _ hnd w hw
    have hokw : fetchWeekOKb fetch w = true := by
      rw [hcw, List.mem_range'_1] at hw
      have := hok (w - 1) (by omega)
      rw [show 1 + (w - 1) = w by omega] at this
      exact this
    obtain ⟨d, hfd, hpne⟩ := (fetchWeekOKb_iff fetch w).mp hokw
    apply calculate_weekly_luck_isSome
    rw [hwr]
    simp only [fetchWeekData, hfd]
    have heven := parse_matchups_length_even d w
    have hne0 : (parse_matchups d w).length ≠ 0 := by
      intro hz
      exact hpne (List.length_eq_zero.mp hz)
    omega
  refine ⟨?_, ⟨k, hk, hcw, ?_, ?_⟩, ?_⟩
  · simp only [analyze_team_luck]
    split
    · rfl
    · split
      · rfl
      · split
        · rename_i heq
          have hs := accumAll_isSome
            (fetchAll fetch (completed_weeks fetch current_week))
            (completed_weeks fetch current_week) [] hsome
          rw [heq] at hs
          simp at hs
        · rfl
  · intro w h1w hwk
    have := hok (w - 1) (by omega)
    rw [show 1 + (w - 1) = w by omega] at this
    exact this
  · intro h
    have := hfail h
    rw [show 1 + k = k + 1 by omega] at this
    exact this
  · intro h
    simp only [analyze_team_luck]
    rw [if_pos h]

/-- Witness for `C9`: on `exampleFetch`, the analysis returns the TeamB and
TeamA metrics and the invariant holds on the first of them. -/
theorem metrics_win_loss_invariant_witness :
    exampleMetricsB.should_have_wins + exampleMetricsB.should_have_losses
      = exampleMetricsB.weeks_played := by
  have hA : completed_weeks exampleFetch 1 = [1] := by
    simp [completed_weeks, scanGo, exampleFetch, parse_matchups, parseGo,
      finishedFixture, mkPair]
  have hB : fetchAll exampleFetch [1] = [exampleMatchupA, exampleMatchupB] := by
    simp [fetchAll, fetchWeekData, exampleFetch, parse_matchups, parseGo,
      finishedFixture, mkPair, exampleMatchupA, exampleMatchupB]
    norm_num
  have hC : calculate_weekly_luck [exampleMatchupA, exampleMatchupB] 1
      = some [("1", 10), ("2", -10)] := by
    norm_num [calculate_weekly_luck, weekRecords, allScores, luckLoop, record_luck,
      count_below, exampleMatchupA, exampleMatchupB, List.countP, List.countP.go,
      List.filter]
  have hC2 := hC
  simp only [exampleMatchupA, exampleMatchupB] at hC2
  have hD : accumAll [exampleMatchupA, exampleMatchupB] [1] []
      = some [("1", [10], [exampleMatchupA]), ("2", [-10], [exampleMatchupB])] := by
    simp [accumAll, hC, hC2, accumWeek, addTeamEntry, List.find?, exampleMatchupA,
      exampleMatchupB]
  have hE : buildMetrics [exampleMatchupA, exampleMatchupB] ("1", [10], [exampleMatchupA])
      = some exampleMetricsA := by
    have h1 : calculate_expected_wins [exampleMatchupA]
        [exampleMatchupA, exampleMatchupB] = 1 := by
      rw [calculate_expected_wins]
      have h2 : expectedWinsSum [exampleMatchupA]
          [exampleMatchupA, exampleMatchupB] = 1 := by
        simp [expectedWinsSum, week_opponent_scores, exampleMatchupA, exampleMatchupB,
          List.filter, List.countP, List.countP.go, (by norm_num : (90:ℚ) < 100)]
      rw [h2]
      norm_num [pyRound]
    have h12 := h1
    simp only [exampleMatchupA, exampleMatchupB] at h12
    simp [buildMetrics, pyMaxQ, pyMinQ, List.findIdx, List.findIdx.go, h12, h1,
      exampleMatchupA, exampleMatchupB, exampleMetricsA, List.countP, List.countP.go,
      (by norm_num : (90:ℚ) < 100)]
  have hF : buildMetrics [exampleMatchupA, exampleMatchupB] ("2", [-10], [exampleMatchupB])
      = some exampleMetricsB := by
    have h1 : calculate_expected_wins [exampleMatchupB]
        [exampleMatchupA, exampleMatchupB] = 0 := by
      rw [calculate_expected_wins]
      have h2 : expectedWinsSum [exampleMatchupB]
          [exampleMatchupA, exampleMatchupB] = 0 := by
        simp [expectedWinsSum, week_opponent_scores, exampleMatchupA, exampleMatchupB,
          List.filter, List.countP, List.countP.go, (by norm_num : ¬ (100:ℚ) < 90)]
      rw [h2]
      norm_num [pyRound]
    have h12 := h1
    simp only [exampleMatchupA, exampleMatchupB] at h12
    simp [buildMetrics, pyMaxQ, pyMinQ, List.findIdx, List.findIdx.go, h12, h1,
      exampleMatchupA, exampleMatchupB, exampleMetricsB, List.countP, List.countP.go,
      (by norm_num : ¬ (100:ℚ) < 90)]
  have hana : analyze_team_luck exampleFetch 1
      = some [exampleMetricsB, exampleMetricsA] := by
    simp only [analyze_team_luck, hA]
    rw [if_neg (show ¬([1] : List Nat) = [] by simp), hB,
      if_neg (show ¬[exampleMatchupA, exampleMatchupB] = [] by simp), hD]
    show some (sortByLuck (List.filterMap
        (buildMetrics [exampleMatchupA, exampleMatchupB])
        [("1", [10], [exampleMatchupA]), ("2", [-10], [exampleMatchupB])]))
      = some [exampleMetricsB, exampleMetricsA]
    rw [List.filterMap_cons, hE, List.filterMap_cons, hF, List.filterMap_nil]
    simp [sortByLuck, insertByLuck, exampleMetricsA, exampleMetricsB]
  exact metrics_win_loss_invariant exampleFetch 1 _ _ hana (List.mem_cons_self _ _)
